import Mathlib

/-!
Shallow embedding of the go-zalo-bot update-delivery and request-execution
engine, together with theorems settling the specification claims.

Conventions used throughout:
* Go `time.Duration` (an int64 count of nanoseconds) is modelled as `Int`.
* Go `float64` arithmetic on delays is modelled by exact rational arithmetic
  (`Rat`); the conversion `time.Duration(f)` (truncation toward zero) is
  modelled by `truncQ`.  Every concrete input used in a theorem below keeps
  all intermediate float values exactly representable, so the rational model
  agrees with IEEE-754 double arithmetic at those inputs.
* Go byte slices are modelled as `List Nat` (each element < 256), and Go
  strings as Lean `String`; for the ASCII strings appearing in the claims,
  `Char.toNat` of each character coincides with its UTF-8 byte.
-/

attribute [local semireducible] Rat.mul

namespace ZaloBot

/-- Error taxonomy from types/errors (unnamed part, `ErrorType`). -/
inductive ErrorType where
  | api
  | network
  | auth
  | validation
  | rateLimit
deriving DecidableEq, Repr

/-- Structure `ZaloBotError` from the types package: numeric code, human
message, optional description, and a kind tag. -/
structure ZaloBotError where
  code : Int
  message : String
  description : String
  type : ErrorType
deriving DecidableEq, Repr

/-- Method `ZaloBotError.IsRetryable`: network and rate-limit errors are
retryable, API errors only for 5xx codes, everything else is not. -/
def ZaloBotError.IsRetryable (e : ZaloBotError) : Bool :=
  match e.type with
  | ErrorType.network => true
  | ErrorType.rateLimit => true
  | ErrorType.api => decide (500 ≤ e.code ∧ e.code < 600)
  | _ => false

/-- A Go `error` value as seen by the retry logic: either a `*ZaloBotError`
or some other error type (the type assertion in `ShouldRetry` fails). -/
inductive GoErr where
  | zalo (e : ZaloBotError)
  | other
deriving DecidableEq, Repr

/-- Constructor `NewAPIError`. -/
def NewAPIError (code : Int) (message description : String) : ZaloBotError :=
  ⟨code, message, description, ErrorType.api⟩

/-- Constructor `NewNetworkError`. -/
def NewNetworkError (message : String) : ZaloBotError :=
  ⟨0, message, "", ErrorType.network⟩

/-- Constructor `NewAuthError`. -/
def NewAuthError (message : String) : ZaloBotError :=
  ⟨401, message, "", ErrorType.auth⟩

/-- Constructor `NewValidationError`. -/
def NewValidationError (message : String) : ZaloBotError :=
  ⟨400, message, "", ErrorType.validation⟩

/-- Constructor `NewRateLimitError`. -/
def NewRateLimitError (message : String) : ZaloBotError :=
  ⟨429, message, "", ErrorType.rateLimit⟩

/-- Structure `RetryConfig`: max attempt count, delays in nanoseconds
(Go `time.Duration`), backoff multiplier (Go `float64`, modelled as `Rat`),
and the list of retryable error kinds. -/
structure RetryConfig where
  maxRetries : Int
  initialDelay : Int
  maxDelay : Int
  backoffFactor : Rat
  retryableErrors : List ErrorType
deriving DecidableEq, Repr

/-- `DefaultRetryConfig`: 3 retries, 1s initial delay, 30s max delay,
factor 2.0, with network and rate-limit kinds retryable. -/
def DefaultRetryConfig : RetryConfig :=
  ⟨3, 1000000000, 30000000000, 2, [ErrorType.network, ErrorType.rateLimit]⟩

/-- Method `RetryConfig.ShouldRetry`: a non-ZaloBotError is assumed transient
and retried; a `ZaloBotError` is retried when its kind is in the configured
retryable list, or when `IsRetryable` holds. -/
def RetryConfig.ShouldRetry (rc : RetryConfig) (err : GoErr) : Bool :=
  match err with
  | GoErr.other => true
  | GoErr.zalo e => rc.retryableErrors.contains e.type || e.IsRetryable

/-- Go conversion `time.Duration(f)` for a `float64` value `f`: truncation
toward zero, modelled on exact rationals. -/
def truncQ (q : Rat) : Int :=
  q.num.tdiv q.den

/-- The loop body of `RetryConfig.NextDelay`: repeatedly multiply the delay
by the backoff factor (with the float-to-Duration truncation of the source),
stopping early at `maxDelay` once the product exceeds it. -/
def nextDelayLoop (rc : RetryConfig) : Int → Nat → Int
  | d, 0 => d
  | d, n + 1 =>
    if rc.maxDelay < truncQ ((d : Rat) * rc.backoffFactor) then rc.maxDelay
    else nextDelayLoop rc (truncQ ((d : Rat) * rc.backoffFactor)) n

/-- Method `RetryConfig.NextDelay` (types package): attempt ≤ 0 returns the
initial delay; otherwise the delay is built by iterated multiplication with
per-step truncation and an early cap at `maxDelay`. -/
def RetryConfig.NextDelay (rc : RetryConfig) (attempt : Int) : Int :=
  if attempt ≤ 0 then rc.initialDelay
  else nextDelayLoop rc rc.initialDelay attempt.toNat

/-- Function `calculateBackoffDelay` (services/base.go): attempt ≤ 0 returns
the initial delay; otherwise a single `math.Pow` computes
initialDelay * backoffFactor ^ attempt, truncated to a Duration and capped
at `maxDelay`. -/
def calculateBackoffDelay (rc : RetryConfig) (attempt : Int) : Int :=
  if attempt ≤ 0 then rc.initialDelay
  else
    let d := truncQ ((rc.initialDelay : Rat) * rc.backoffFactor ^ attempt.toNat)
    if rc.maxDelay < d then rc.maxDelay else d

/-- Response envelope `APIResponse` (services/base.go): ok flag, opaque raw
result, numeric error code, and description. -/
structure APIResponse where
  ok : Bool
  result : String
  errorCode : Int
  description : String
deriving DecidableEq, Repr

/-- Method `APIResponse.GetError`: nil on success; error code 429 maps to a
rate-limit error, 401/403 to an auth error, anything else to a generic API
error. -/
def APIResponse.GetError (r : APIResponse) : Option ZaloBotError :=
  if r.ok then none
  else if r.errorCode = 429 then some (NewRateLimitError r.description)
  else if r.errorCode = 401 ∨ r.errorCode = 403 then some (NewAuthError r.description)
  else some (NewAPIError r.errorCode r.description "API request failed")

/-- One HTTP exchange as seen by `executeRequest` (services/base.go):
whether the transport call failed, the HTTP status code, the parsed
Retry-After header in seconds (0 when absent), and the JSON decode of the
body (`none` when undecodable). -/
structure HTTPOutcome where
  transportError : Bool
  statusCode : Int
  retryAfterSecs : Int
  parsed : Option APIResponse
deriving DecidableEq, Repr

/-- Function `executeRequest` (services/base.go, lines 119-210), as a map
from the HTTP exchange to its classified outcome: transport failures are
network errors; 429 is a rate-limit error (with the Retry-After hint only
surfaced inside the message text); 401/403 are auth errors; an undecodable
body is an API error (server error for 5xx); a decoded envelope with
ok=false is classified by `GetError`; otherwise the envelope is returned. -/
def executeRequest (o : HTTPOutcome) : Except GoErr APIResponse :=
  if o.transportError then Except.error (GoErr.zalo (NewNetworkError "request failed")) else
  if o.statusCode = 429 then
    Except.error (GoErr.zalo (NewRateLimitError
      (if 0 < o.retryAfterSecs * 1000000000 then "rate limit exceeded, retry after"
       else "rate limit exceeded"))) else
  if o.statusCode = 401 ∨ o.statusCode = 403 then
    Except.error (GoErr.zalo (NewAuthError "authentication failed")) else
  match o.parsed with
  | none =>
    if 500 ≤ o.statusCode then
      Except.error (GoErr.zalo (NewAPIError o.statusCode "server error" ""))
    else Except.error (GoErr.zalo (NewAPIError o.statusCode "failed to parse response" ""))
  | some resp =>
    if resp.ok then Except.ok resp
    else
      match resp.GetError with
      | some e => Except.error (GoErr.zalo e)
      | none => Except.error (GoErr.zalo (NewAPIError resp.errorCode resp.description "API method"))

/-- Observable result of one `DoRequest` call: the returned envelope and
error exactly as the Go pair (either may be nil), the backoff sleeps that
were performed (in nanoseconds, in order), and how many attempts executed. -/
structure DoRequestTrace where
  resp : Option APIResponse
  err : Option GoErr
  sleeps : List Int
  attempts : Nat
deriving DecidableEq, Repr

/-- The sleep log extension performed at the head of a retry-loop
iteration: before every attempt after the first, `DoRequest` sleeps for
`calculateBackoffDelay`. -/
def sleepsAfter (rc : RetryConfig) (attempt : Nat) (sleeps : List Int) : List Int :=
  if attempt ≠ 0 then sleeps ++ [calculateBackoffDelay rc (attempt : Int)] else sleeps

/-- The retry loop of `DoRequest` (services/base.go, lines 84-113).
Arguments: the attempt index, the remaining number of loop iterations
(maxRetries + 1 - attempt), the `lastErr` accumulator, the sleeps so far,
and the attempts executed so far.  Before every attempt after the first the
loop sleeps unless the context is already cancelled, in which case it
returns a network error; a successful attempt returns the envelope; a
non-retryable error returns immediately; reaching `attempt = maxRetries`
breaks out and returns `lastErr`. -/
def doRequestLoop (rc : RetryConfig) (ctxDone : Nat → Bool)
    (oracle : Nat → Except GoErr APIResponse) :
    Nat → Nat → Option GoErr → List Int → Nat → DoRequestTrace
  | _, 0, lastErr, sleeps, att => ⟨none, lastErr, sleeps, att⟩
  | attempt, rem + 1, _, sleeps, att =>
    if attempt ≠ 0 ∧ ctxDone attempt then
      ⟨none, some (GoErr.zalo (NewNetworkError "request cancelled")), sleeps, att⟩
    else
      match oracle attempt with
      | Except.ok resp => ⟨some resp, none, sleepsAfter rc attempt sleeps, att + 1⟩
      | Except.error e =>
        if rc.ShouldRetry e = false then
          ⟨none, some e, sleepsAfter rc attempt sleeps, att + 1⟩
        else if rem = 0 then ⟨none, some e, sleepsAfter rc attempt sleeps, att + 1⟩
        else doRequestLoop rc ctxDone oracle (attempt + 1) rem (some e)
          (sleepsAfter rc attempt sleeps) (att + 1)

/-- Method `DoRequest` (services/base.go, lines 76-116): a nil RetryConfig
falls back to the default, then the retry loop runs from attempt 0 with
maxRetries + 1 available iterations.  `ctxDone n` tells whether the request
context is already cancelled when the loop would sleep before attempt `n`;
`oracle n` is the outcome of `executeRequest` on attempt `n`. -/
def DoRequest (rcOpt : Option RetryConfig) (ctxDone : Nat → Bool)
    (oracle : Nat → Except GoErr APIResponse) : DoRequestTrace :=
  let rc := rcOpt.getD DefaultRetryConfig
  doRequestLoop rc ctxDone oracle 0 (rc.maxRetries + 1).toNat none [] 0

/-- The error carried by a failed attempt (the `.ok` case is never consulted
where this is used). -/
def errOf : Except GoErr APIResponse → GoErr
  | Except.error e => e
  | Except.ok _ => GoErr.other

/-- An inbound `Update` (types/webhook): numeric id plus at most one
populated payload variant (payload bodies are opaque here). -/
structure Update where
  updateID : Int
  message : Option String
  postbackEvent : Option String
  userEvent : Option String
deriving DecidableEq, Repr

/-- An update carrying only an id, as produced by a getUpdates batch in the
claims below. -/
def mkUpdate (n : Int) : Update := ⟨n, none, none, none⟩

/-- The offset acknowledgement step of the publish loop in `pollUpdates`
(lines 714-721): after an update is sent, the offset becomes updateID + 1
when updateID ≥ offset, and is unchanged otherwise. -/
def advanceOffset (offset : Int) (u : Update) : Int :=
  if offset ≤ u.updateID then u.updateID + 1 else offset

/-- The offset after publishing a whole batch, in order. -/
def publishBatch (offset : Int) (updates : List Update) : Int :=
  updates.foldl advanceOffset offset

/-- One poll cycle of `pollUpdates`: a failed getUpdates call leaves the
offset unchanged and publishes nothing; a successful one publishes the
batch and advances the offset through `advanceOffset`. -/
def pollCycle (offset : Int) (result : Except GoErr (List Update)) : Int × List Update :=
  match result with
  | Except.error _ => (offset, [])
  | Except.ok updates => (publishBatch offset updates, updates)

/-- Structure `UpdateConfig` (types/config): offset, limit, timeout. -/
structure UpdateConfig where
  offset : Int
  limit : Int
  timeout : Int
deriving DecidableEq, Repr

/-- Method `UpdateConfig.Validate`: clamps limit into (0, 100] (defaulting
to 100) and a negative timeout to 0, then returns nil — it never fails. -/
def UpdateConfig.validate (uc : UpdateConfig) : UpdateConfig × Option ZaloBotError :=
  let l1 := if uc.limit ≤ 0 then 100 else uc.limit
  let l2 := if 100 < l1 then 100 else l1
  let t := if uc.timeout < 0 then 0 else uc.timeout
  ({ uc with limit := l2, timeout := t }, none)

/-- The mutex-guarded polling state of a `BotAPI`: the running flag, the
output channel and the stop channel.  Channels are identified by a `Nat`
identity so that reference equality of returned channels is expressible. -/
structure BotState where
  isPolling : Bool
  updatesChan : Option Nat
  stopPollingCh : Option Nat
deriving DecidableEq, Repr

/-- Method `GetUpdatesChan` (lines 598-629) under the polling mutex.
`freshChan`/`freshStop` are the identities a channel allocation would
receive.  Returns the new state, the channel handed to the caller, and
whether a new polling goroutine was spawned.  An invalid config would
return a fresh closed channel, but `UpdateConfig.validate` never fails;
if already polling with a live channel the existing channel is returned
unchanged; otherwise channels are allocated as needed, the flag is set and
the loop is spawned. -/
def GetUpdatesChan (s : BotState) (cfg : UpdateConfig) (freshChan freshStop : Nat) :
    BotState × Nat × Bool :=
  match cfg.validate.2 with
  | some _ => (s, freshChan, false)
  | none =>
    if s.isPolling && s.updatesChan.isSome then (s, s.updatesChan.getD 0, false)
    else
      let ch := s.updatesChan.getD freshChan
      let stop := s.stopPollingCh.getD freshStop
      (⟨true, some ch, some stop⟩, ch, true)

/-- Method `StopPolling` (lines 762-773) under the polling mutex: when a
poll loop is running and the stop channel is live, the stop channel is
closed and nilled out; otherwise nothing changes.  The subsequent
`pollingWg.Wait()` does not modify this state. -/
def StopPolling (s : BotState) : BotState :=
  if s.isPolling && s.stopPollingCh.isSome then { s with stopPollingCh := none } else s

/-- Reduction of a value to a 32-bit machine word. -/
def w32 (n : Nat) : Nat := n % 4294967296

/-- Right rotation of a 32-bit word by `n` bits. -/
def rotr (n x : Nat) : Nat := w32 ((x >>> n) ||| (x <<< (32 - n)))

/-- The SHA-256 choice function. -/
def shaCh (x y z : Nat) : Nat := (x &&& y) ^^^ ((x ^^^ 4294967295) &&& z)

/-- The SHA-256 majority function. -/
def shaMaj (x y z : Nat) : Nat := (x &&& y) ^^^ (x &&& z) ^^^ (y &&& z)

/-- SHA-256 big sigma 0. -/
def bsig0 (x : Nat) : Nat := rotr 2 x ^^^ rotr 13 x ^^^ rotr 22 x

/-- SHA-256 big sigma 1. -/
def bsig1 (x : Nat) : Nat := rotr 6 x ^^^ rotr 11 x ^^^ rotr 25 x

/-- SHA-256 small sigma 0. -/
def ssig0 (x : Nat) : Nat := rotr 7 x ^^^ rotr 18 x ^^^ (x >>> 3)

/-- SHA-256 small sigma 1. -/
def ssig1 (x : Nat) : Nat := rotr 17 x ^^^ rotr 19 x ^^^ (x >>> 10)

/-- The SHA-256 round constants. -/
def shaK : List Nat :=
  [1116352408, 1899447441, 3049323471, 3921009573,
   961987163, 1508970993, 2453635748, 2870763221,
   3624381080, 310598401, 607225278, 1426881987,
   1925078388, 2162078206, 2614888103, 3248222580,
   3835390401, 4022224774, 264347078, 604807628,
   770255983, 1249150122, 1555081692, 1996064986,
   2554220882, 2821834349, 2952996808, 3210313671,
   3336571891, 3584528711, 113926993, 338241895,
   666307205, 773529912, 1294757372, 1396182291,
   1695183700, 1986661051, 2177026350, 2456956037,
   2730485921, 2820302411, 3259730800, 3345764771,
   3516065817, 3600352804, 4094571909, 275423344,
   430227734, 506948616, 659060556, 883997877,
   958139571, 1322822218, 1537002063, 1747873779,
   1955562222, 2024104815, 2227730452, 2361852424,
   2428436474, 2756734187, 3204031479, 3329325298]

/-- The SHA-256 initial hash state. -/
def shaH0 : List Nat :=
  [1779033703, 3144134277, 1013904242, 2773480762,
   1359893119, 2600822924, 528734635, 1541459225]

/-- Big-endian 8-byte encoding of the message bit length. -/
def lenBytes (n : Nat) : List Nat :=
  [(n >>> 56) % 256, (n >>> 48) % 256, (n >>> 40) % 256, (n >>> 32) % 256,
   (n >>> 24) % 256, (n >>> 16) % 256, (n >>> 8) % 256, n % 256]

/-- SHA-256 padding: append the 0x80 byte, zeros up to 56 mod 64, and the
bit length. -/
def padMessage (msg : List Nat) : List Nat :=
  let z := (120 - ((msg.length + 1) % 64)) % 64
  msg ++ 128 :: (List.replicate z 0 ++ lenBytes (8 * msg.length))

/-- Big-endian grouping of bytes into 32-bit words. -/
def bytesToWords : List Nat → List Nat
  | a :: b :: c :: d :: rest => (((a <<< 8 ||| b) <<< 8 ||| c) <<< 8 ||| d) :: bytesToWords rest
  | _ => []

/-- Extension of a 16-word block to the 64-word message schedule (the
argument counts the remaining words to append). -/
def extendSchedule : List Nat → Nat → List Nat
  | ws, 0 => ws
  | ws, n + 1 =>
    let i := ws.length
    let w := w32 (ws.getD (i - 16) 0 + ssig0 (ws.getD (i - 15) 0) +
      ws.getD (i - 7) 0 + ssig1 (ws.getD (i - 2) 0))
    extendSchedule (ws ++ [w]) n

/-- One round of the SHA-256 compression function on the 8-word state. -/
def compressStep (st : List Nat) (kw : Nat × Nat) : List Nat :=
  match st with
  | [a, b, c, d, e, f, g, h] =>
    let t1 := w32 (h + bsig1 e + shaCh e f g + kw.1 + kw.2)
    let t2 := w32 (bsig0 a + shaMaj a b c)
    [w32 (t1 + t2), a, b, c, w32 (d + t1), e, f, g]
  | other => other

/-- Compression of one 16-word block into the running hash state. -/
def compressBlock (hs : List Nat) (block : List Nat) : List Nat :=
  let ws := extendSchedule block 48
  let final := (shaK.zip ws).foldl compressStep hs
  (hs.zip final).map fun p => w32 (p.1 + p.2)

/-- Folding of the given number of 16-word blocks of the padded message
into the state. -/
def sha256Blocks : Nat → List Nat → List Nat → List Nat
  | 0, hs, _ => hs
  | n + 1, hs, ws => sha256Blocks n (compressBlock hs (ws.take 16)) (ws.drop 16)

/-- Big-endian byte decomposition of a 32-bit word. -/
def wordBytes (w : Nat) : List Nat :=
  [(w >>> 24) % 256, (w >>> 16) % 256, (w >>> 8) % 256, w % 256]

/-- SHA-256 of a byte sequence (crypto/sha256 as used by the webhook
helpers). -/
def sha256 (msg : List Nat) : List Nat :=
  let ws := bytesToWords (padMessage msg)
  (sha256Blocks (ws.length / 16) shaH0 ws).foldr (fun w acc => wordBytes w ++ acc) []

/-- HMAC-SHA256 (crypto/hmac with sha256.New, block size 64). -/
def hmacSha256 (key msg : List Nat) : List Nat :=
  let k0 := if 64 < key.length then sha256 key else key
  let kp := k0 ++ List.replicate (64 - k0.length) 0
  sha256 ((kp.map fun b => b ^^^ 92) ++ sha256 ((kp.map fun b => b ^^^ 54) ++ msg))

/-- A lowercase hexadecimal digit. -/
def hexDigitChar (n : Nat) : Char :=
  if n < 10 then Char.ofNat (48 + n) else Char.ofNat (87 + n)

/-- Lowercase hex encoding of bytes (encoding/hex.EncodeToString). -/
def hexEncode (bs : List Nat) : String :=
  String.mk (bs.foldr (fun b acc => hexDigitChar (b / 16) :: hexDigitChar (b % 16) :: acc) [])

/-- Go byte-slice view of a string.  For the ASCII strings used in the
claims this coincides with UTF-8 encoding. -/
def asciiBytes (s : String) : List Nat := s.data.map Char.toNat

/-- Whitespace as recognized by strings.TrimSpace (unicode.IsSpace) on the
Latin-1 range. -/
def goIsSpace (c : Char) : Bool :=
  c.toNat = 9 || c.toNat = 10 || c.toNat = 11 || c.toNat = 12 || c.toNat = 13 ||
  c.toNat = 32 || c.toNat = 133 || c.toNat = 160

/-- Whether strings.TrimSpace of the string is empty — the emptiness test
used by the signature helpers. -/
def trimSpaceIsEmpty (s : String) : Bool := s.data.all goIsSpace

/-- Function `VerifyWebhookSignature` (utils/helpers.go, lines 104-117):
false when payload is empty or signature/secret trim to empty; otherwise
the signature is compared (in constant time in the source) to the
hex-encoded HMAC-SHA256 of the payload under the secret. -/
def VerifyWebhookSignature (payload : List Nat) (signature secret : String) : Bool :=
  if payload.length = 0 || trimSpaceIsEmpty signature || trimSpaceIsEmpty secret then false
  else signature == hexEncode (hmacSha256 (asciiBytes secret) payload)

/-- The four distinct failures of `ValidateWebhookSignature`. -/
inductive WebhookError where
  | emptyPayload
  | emptySignature
  | emptySecret
  | invalidSignature
deriving DecidableEq, Repr

/-- Function `ValidateWebhookSignature` (utils/helpers.go, lines 121-143):
checks empty payload, then empty signature, then empty secret, then the
HMAC comparison, returning nil only when all checks pass. -/
def ValidateWebhookSignature (payload : List Nat) (signature secret : String) :
    Option WebhookError :=
  if payload.length = 0 then some WebhookError.emptyPayload
  else if trimSpaceIsEmpty signature then some WebhookError.emptySignature
  else if trimSpaceIsEmpty secret then some WebhookError.emptySecret
  else if VerifyWebhookSignature payload signature secret = false then
    some WebhookError.invalidSignature
  else none

/-- A single update advance never decreases the offset. -/
theorem advanceOffset_le (offset : Int) (u : Update) : offset ≤ advanceOffset offset u := by
  unfold advanceOffset
  split <;> omega

/-- Publishing a batch never decreases the offset. -/
theorem publishBatch_le (us : List Update) (offset : Int) : offset ≤ publishBatch offset us := by
  induction us generalizing offset with
  | nil => exact le_refl _
  | cons u us ih =>
    calc offset ≤ advanceOffset offset u := advanceOffset_le offset u
      _ ≤ publishBatch (advanceOffset offset u) us := ih _
      _ = publishBatch offset (u :: us) := rfl

/-- Publishing a longer batch factors through its prefix. -/
theorem publishBatch_append (pre post : List Update) (offset : Int) :
    publishBatch offset (pre ++ post) = publishBatch (publishBatch offset pre) post := by
  unfold publishBatch
  exact List.foldl_append _ _ _ _

/-- C1: within one polling loop the offset is non-decreasing across
successively published updates; from any offset at most 3, the batch with
ids 3, 5, 5, 7 leaves the offset at 8 (each publish advances it to
max(offset, id + 1)); a failed poll cycle does not advance the offset and
publishes nothing. -/
theorem c1_offset_monotone_batch (off : Int) (h3 : off ≤ 3) (pre post : List Update)
    (e : GoErr) :
    off ≤ publishBatch off pre ∧
    publishBatch off pre ≤ publishBatch off (pre ++ post) ∧
    publishBatch off [mkUpdate 3, mkUpdate 5, mkUpdate 5, mkUpdate 7] = 8 ∧
    pollCycle off (Except.error e) = (off, []) := by
  refine ⟨publishBatch_le pre off, ?_, ?_, rfl⟩
  · rw [publishBatch_append]
    exact publishBatch_le post _
  · simp only [publishBatch, List.foldl, advanceOffset, mkUpdate]
    rw [if_pos h3]
    norm_num

/-- Witness for C1 at offset 2 with concrete batches. -/
theorem c1_offset_monotone_batch_witness :
    (2 : Int) ≤ publishBatch 2 [mkUpdate 1] ∧
    publishBatch 2 [mkUpdate 1] ≤ publishBatch 2 ([mkUpdate 1] ++ [mkUpdate 9]) ∧
    publishBatch 2 [mkUpdate 3, mkUpdate 5, mkUpdate 5, mkUpdate 7] = 8 ∧
    pollCycle 2 (Except.error GoErr.other) = (2, []) :=
  c1_offset_monotone_batch 2 (by decide) [mkUpdate 1] [mkUpdate 9] GoErr.other

/-- C2: for every update config, starting an engine that is already polling
returns the very same channel and spawns no second loop; starting from idle
spawns one loop, and a subsequent start returns the channel of the first
call unchanged (start is idempotent, serialized by the polling mutex). -/
theorem c2_getUpdatesChan_idempotent (s : BotState) (c : Nat) (hp : s.isPolling = true)
    (hc : s.updatesChan = some c) (cfg cfg2 : UpdateConfig) (f1 f2 g1 g2 : Nat) :
    GetUpdatesChan s cfg f1 f2 = (s, c, false) ∧
    GetUpdatesChan ⟨false, none, none⟩ cfg2 g1 g2 = (⟨true, some g1, some g2⟩, g1, true) ∧
    GetUpdatesChan ⟨true, some g1, some g2⟩ cfg f1 f2 = (⟨true, some g1, some g2⟩, g1, false) := by
  refine ⟨?_, rfl, rfl⟩
  simp [GetUpdatesChan, UpdateConfig.validate, hp, hc]

/-- Witness for C2 on a concrete engine state already polling with
channel 5. -/
theorem c2_getUpdatesChan_idempotent_witness :
    GetUpdatesChan ⟨true, some 5, some 6⟩ ⟨0, 100, 0⟩ 7 8 = (⟨true, some 5, some 6⟩, 5, false) ∧
    GetUpdatesChan ⟨false, none, none⟩ ⟨0, 100, 0⟩ 9 10 = (⟨true, some 9, some 10⟩, 9, true) ∧
    GetUpdatesChan ⟨true, some 9, some 10⟩ ⟨0, 100, 0⟩ 7 8 = (⟨true, some 9, some 10⟩, 9, false) :=
  c2_getUpdatesChan_idempotent ⟨true, some 5, some 6⟩ 5 rfl rfl ⟨0, 100, 0⟩ ⟨0, 100, 0⟩ 7 8 9 10

/-- C8: stopping an idle engine is a no-op — the state (not polling, its
channels) is returned unchanged, and the model is a total function, so the
call returns normally. -/
theorem c8_stopPolling_idle_noop (s : BotState) (h : s.isPolling = false) :
    StopPolling s = s := by
  simp [StopPolling, h]

/-- Witness for C8 on the idle state with no channels. -/
theorem c8_stopPolling_idle_noop_witness :
    StopPolling ⟨false, none, none⟩ = ⟨false, none, none⟩ :=
  c8_stopPolling_idle_noop ⟨false, none, none⟩ rfl

/-- Counterexample to C5 as stated: `ShouldRetry` consults the configured
retryable list before the per-kind rule, so a configuration that lists the
auth kind as retryable retries an auth error. -/
theorem c5_counterexample :
    RetryConfig.ShouldRetry ⟨3, 1000000000, 30000000000, 2, [ErrorType.auth]⟩
      (GoErr.zalo (NewAuthError "unauthorized")) = true := by
  decide

/-- C5 (amended): for every retry configuration whose retryable list
contains neither the auth nor the validation kind — the default
configuration lists only network and rate-limit — `ShouldRetry` is false on
every auth or validation error, regardless of attempt index (the source
function does not even take one). -/
theorem c5_auth_validation_not_retried (rc : RetryConfig) (e : ZaloBotError)
    (ha : ErrorType.auth ∉ rc.retryableErrors)
    (hv : ErrorType.validation ∉ rc.retryableErrors)
    (he : e.type = ErrorType.auth ∨ e.type = ErrorType.validation) :
    rc.ShouldRetry (GoErr.zalo e) = false := by
  have hmem : e.type ∉ rc.retryableErrors := by
    rcases he with h | h <;> rw [h] <;> assumption
  have hcontains : rc.retryableErrors.contains e.type = false := by
    rw [Bool.eq_false_iff]
    intro hc
    exact hmem (List.mem_of_elem_eq_true hc)
  have hretry : e.IsRetryable = false := by
    unfold ZaloBotError.IsRetryable
    rcases he with h | h <;> rw [h]
  simp [RetryConfig.ShouldRetry, hretry, hcontains]
  exact hmem

/-- Witness for C5 on the default configuration and a concrete auth
error. -/
theorem c5_auth_validation_not_retried_witness :
    DefaultRetryConfig.ShouldRetry (GoErr.zalo (NewAuthError "bad token")) = false :=
  c5_auth_validation_not_retried DefaultRetryConfig (NewAuthError "bad token")
    (by decide) (by decide) (Or.inl rfl)

/-- On nonnegative rationals the Go float-to-Duration truncation is the
floor. -/
theorem truncQ_eq_floor (q : Rat) (hq : 0 ≤ q) : truncQ q = ⌊q⌋ := by
  unfold truncQ
  rw [Int.tdiv_eq_ediv (Rat.num_nonneg.2 hq) (Int.ofNat_nonneg q.den)]
  exact (Rat.floor_def).symm

/-- Multiplying a nonnegative integer delay by a factor of at least one and
truncating does not decrease it. -/
theorem le_truncQ_mul (d : Int) (f : Rat) (hd : 0 ≤ d) (hf : 1 ≤ f) :
    d ≤ truncQ ((d : Rat) * f) := by
  have hq : (0 : Rat) ≤ (d : Rat) * f :=
    mul_nonneg (by exact_mod_cast hd) (le_trans zero_le_one hf)
  rw [truncQ_eq_floor _ hq]
  refine Int.le_floor.2 ?_
  calc (d : Rat) = d * 1 := (mul_one _).symm
    _ ≤ (d : Rat) * f := by
      exact mul_le_mul_of_nonneg_left hf (by exact_mod_cast hd)

/-- The delay loop never exceeds the cap once the entry value is within
it. -/
theorem nextDelayLoop_le_max (rc : RetryConfig) :
    ∀ (m : Nat) (d : Int), d ≤ rc.maxDelay → nextDelayLoop rc d m ≤ rc.maxDelay := by
  intro m
  induction m with
  | zero => intro d hd; exact hd
  | succ m ih =>
    intro d hd
    unfold nextDelayLoop
    split
    · exact le_refl _
    · next h => exact ih _ (by omega)

/-- Iterating the delay loop one more step never decreases the result when
the factor is at least one. -/
theorem nextDelayLoop_mono (rc : RetryConfig) (hf : 1 ≤ rc.backoffFactor) :
    ∀ (m : Nat) (d : Int), 0 ≤ d → d ≤ rc.maxDelay →
      nextDelayLoop rc d m ≤ nextDelayLoop rc d (m + 1) := by
  intro m
  induction m with
  | zero =>
    intro d hd hdm
    show d ≤ nextDelayLoop rc d 1
    unfold nextDelayLoop
    split
    · exact hdm
    · exact le_truncQ_mul d rc.backoffFactor hd hf
  | succ m ih =>
    intro d hd hdm
    show nextDelayLoop rc d (m + 1) ≤ nextDelayLoop rc d (m + 1 + 1)
    conv_lhs => unfold nextDelayLoop
    conv_rhs => unfold nextDelayLoop
    split
    · exact le_refl _
    · next h =>
      have hd2 : 0 ≤ truncQ ((d : Rat) * rc.backoffFactor) :=
        le_trans hd (le_truncQ_mul d rc.backoffFactor hd hf)
      exact ih _ hd2 (by omega)

/-- Counterexample to C6 as stated: attempt index 0 returns the initial
delay without applying the cap, so a configuration with initial delay above
the max delay exceeds it; and with a backoff factor below one the delay
sequence strictly decreases while all values are below the cap. -/
theorem c6_counterexample :
    ¬ RetryConfig.NextDelay ⟨3, 50000000000, 30000000000, 2, []⟩ 0 ≤
      (⟨3, 50000000000, 30000000000, 2, []⟩ : RetryConfig).maxDelay ∧
    RetryConfig.NextDelay ⟨3, 8, 30, mkRat 1 2, []⟩ 0 = 8 ∧
    RetryConfig.NextDelay ⟨3, 8, 30, mkRat 1 2, []⟩ 1 = 4 ∧
    (4 : Int) < 8 ∧ (8 : Int) < 30 := by
  refine ⟨by decide, by decide, ?_, by decide, by decide⟩
  decide

/-- C6 (amended): provided the initial delay is nonnegative and no larger
than the max delay and the backoff factor is at least one — all true of the
default configuration — every delay is capped by the max delay and the
delay sequence is non-decreasing in the attempt index. -/
theorem c6_delay_capped_monotone (rc : RetryConfig) (h0 : 0 ≤ rc.initialDelay)
    (him : rc.initialDelay ≤ rc.maxDelay) (hf : 1 ≤ rc.backoffFactor) (n : Nat) :
    RetryConfig.NextDelay rc (n : Int) ≤ rc.maxDelay ∧
    RetryConfig.NextDelay rc (n : Int) ≤ RetryConfig.NextDelay rc ((n : Int) + 1) := by
  cases n with
  | zero =>
    constructor
    · simpa [RetryConfig.NextDelay] using him
    · show RetryConfig.NextDelay rc 0 ≤ RetryConfig.NextDelay rc 1
      simp only [RetryConfig.NextDelay]
      norm_num
      exact nextDelayLoop_mono rc hf 0 rc.initialDelay h0 him
  | succ m =>
    have hpos : ¬ ((m + 1 : Nat) : Int) ≤ 0 := by
      push_cast
      omega
    have hpos2 : ¬ ((m + 1 : Nat) : Int) + 1 ≤ 0 := by
      push_cast
      omega
    have ht1 : (((m + 1 : Nat) : Int)).toNat = m + 1 := by
      push_cast
      omega
    have ht2 : (((m + 1 : Nat) : Int) + 1).toNat = m + 1 + 1 := by
      push_cast
      omega
    constructor
    · simp only [RetryConfig.NextDelay, if_neg hpos, ht1]
      exact nextDelayLoop_le_max rc (m + 1) rc.initialDelay him
    · simp only [RetryConfig.NextDelay, if_neg hpos, if_neg hpos2, ht1, ht2]
      exact nextDelayLoop_mono rc hf (m + 1) rc.initialDelay h0 him

/-- Witness for C6 on the default configuration at attempt 2. -/
theorem c6_delay_capped_monotone_witness :
    RetryConfig.NextDelay DefaultRetryConfig ((2 : Nat) : Int) ≤ DefaultRetryConfig.maxDelay ∧
    RetryConfig.NextDelay DefaultRetryConfig ((2 : Nat) : Int) ≤
      RetryConfig.NextDelay DefaultRetryConfig (((2 : Nat) : Int) + 1) :=
  c6_delay_capped_monotone DefaultRetryConfig (by decide) (by decide) (by norm_num [DefaultRetryConfig]) 2

/-- Truncation is the identity on integers. -/
theorem truncQ_intCast (m : Int) : truncQ ((m : Int) : Rat) = m := by
  unfold truncQ
  rw [Rat.intCast_num, Rat.intCast_den]
  exact Int.tdiv_one m

/-- With an integer backoff factor the per-step float product stays an
integer, so its truncation is exact. -/
theorem truncQ_mul_natCast (d : Int) (k : Nat) :
    truncQ ((d : Rat) * (k : Rat)) = d * (k : Int) := by
  rw [show ((d : Rat) * (k : Rat)) = (((d * (k : Int) : Int)) : Rat) by push_cast; ring]
  exact truncQ_intCast _

/-- With an integer factor k ≥ 1 and a nonnegative entry value, the
iterated delay loop computes exactly min(d * k^m, maxDelay). -/
theorem nextDelayLoop_int (rc : RetryConfig) (k : Nat) (hk : rc.backoffFactor = (k : Rat))
    (hk1 : 1 ≤ k) :
    ∀ (m : Nat) (d : Int), 0 ≤ d →
      nextDelayLoop rc d (m + 1) = min (d * (k : Int) ^ (m + 1)) rc.maxDelay := by
  have hk' : (1 : Int) ≤ (k : Int) := by exact_mod_cast hk1
  intro m
  induction m with
  | zero =>
    intro d hd
    show (if rc.maxDelay < truncQ ((d : Rat) * rc.backoffFactor) then rc.maxDelay
      else nextDelayLoop rc (truncQ ((d : Rat) * rc.backoffFactor)) 0) = _
    rw [hk, truncQ_mul_natCast]
    show (if rc.maxDelay < d * (k : Int) then rc.maxDelay else d * (k : Int)) = _
    rw [pow_one, Int.min_def]
    by_cases h : rc.maxDelay < d * (k : Int)
    · rw [if_pos h, if_neg (by omega)]
    · rw [if_neg h, if_pos (by omega)]
  | succ m ih =>
    intro d hd
    show (if rc.maxDelay < truncQ ((d : Rat) * rc.backoffFactor) then rc.maxDelay
      else nextDelayLoop rc (truncQ ((d : Rat) * rc.backoffFactor)) (m + 1)) = _
    rw [hk, truncQ_mul_natCast]
    by_cases h : rc.maxDelay < d * (k : Int)
    · rw [if_pos h]
      have hpow : (1 : Int) ≤ (k : Int) ^ (m + 1) := one_le_pow₀ hk'
      have hdk : 0 ≤ d * (k : Int) := mul_nonneg hd (by omega)
      have hge : rc.maxDelay ≤ d * (k : Int) ^ (m + 1 + 1) := by
        calc rc.maxDelay ≤ d * (k : Int) := le_of_lt h
          _ = d * (k : Int) * 1 := (mul_one _).symm
          _ ≤ d * (k : Int) * (k : Int) ^ (m + 1) := by
            exact mul_le_mul_of_nonneg_left hpow hdk
          _ = d * (k : Int) ^ (m + 1 + 1) := by ring
      exact (min_eq_right hge).symm
    · rw [if_neg h]
      rw [ih (d * (k : Int)) (mul_nonneg hd (by omega))]
      rw [show d * (k : Int) * (k : Int) ^ (m + 1) = d * (k : Int) ^ (m + 1 + 1) by ring]

/-- Counterexample to C9 as stated: with backoff factor 1.5 and initial
delay 1ns, the iterated implementation truncates at every step and stays at
1ns, while the closed-form implementation truncates once and reaches 2ns at
attempt 2 — the two delay implementations disagree. -/
theorem c9_counterexample :
    RetryConfig.NextDelay ⟨3, 1, 1000000, mkRat 3 2, []⟩ 2 = 1 ∧
    calculateBackoffDelay ⟨3, 1, 1000000, mkRat 3 2, []⟩ 2 = 2 ∧
    RetryConfig.NextDelay ⟨3, 1, 1000000, mkRat 3 2, []⟩ 2 ≠
      calculateBackoffDelay ⟨3, 1, 1000000, mkRat 3 2, []⟩ 2 := by
  refine ⟨by decide, by decide, by decide⟩

/-- C9 (amended): when the backoff factor is an integer k ≥ 1 and the
initial delay is nonnegative — both true of the default configuration —
no truncation loss occurs and the two implementations agree at every
attempt index, with value initialDelay at attempt 0 and
min(initialDelay * k^n, maxDelay) for n ≥ 1. -/
theorem c9_delay_implementations_agree (rc : RetryConfig) (k : Nat)
    (hd : 0 ≤ rc.initialDelay) (hk : rc.backoffFactor = (k : Rat)) (hk1 : 1 ≤ k) (n : Nat) :
    RetryConfig.NextDelay rc (n : Int) = calculateBackoffDelay rc (n : Int) ∧
    RetryConfig.NextDelay rc 0 = rc.initialDelay ∧
    (1 ≤ n → RetryConfig.NextDelay rc (n : Int) =
      min (rc.initialDelay * (k : Int) ^ n) rc.maxDelay) := by
  have h0 : RetryConfig.NextDelay rc 0 = rc.initialDelay := by
    simp [RetryConfig.NextDelay]
  cases n with
  | zero =>
    refine ⟨?_, h0, by omega⟩
    simp [RetryConfig.NextDelay, calculateBackoffDelay]
  | succ m =>
    have hpos : ¬ ((m + 1 : Nat) : Int) ≤ 0 := by push_cast; omega
    have ht : (((m + 1 : Nat) : Int)).toNat = m + 1 := by push_cast; omega
    have hnext : RetryConfig.NextDelay rc ((m + 1 : Nat) : Int) =
        min (rc.initialDelay * (k : Int) ^ (m + 1)) rc.maxDelay := by
      simp only [RetryConfig.NextDelay, if_neg hpos, ht]
      exact nextDelayLoop_int rc k hk hk1 m rc.initialDelay hd
    have hcalc : calculateBackoffDelay rc ((m + 1 : Nat) : Int) =
        min (rc.initialDelay * (k : Int) ^ (m + 1)) rc.maxDelay := by
      simp only [calculateBackoffDelay, if_neg hpos, ht, hk]
      rw [show ((rc.initialDelay : Rat) * (k : Rat) ^ (m + 1)) =
        (((rc.initialDelay * (k : Int) ^ (m + 1) : Int)) : Rat) by push_cast; ring]
      rw [truncQ_intCast, Int.min_def]
      by_cases h : rc.maxDelay < rc.initialDelay * (k : Int) ^ (m + 1)
      · rw [if_pos h, if_neg (by omega)]
      · rw [if_neg h, if_pos (by omega)]
    exact ⟨hnext.trans hcalc.symm, h0, fun _ => hnext⟩

/-- Witness for C9 on the default configuration (factor 2) at attempt 5,
where both implementations hit the 30s cap. -/
theorem c9_delay_implementations_agree_witness :
    RetryConfig.NextDelay DefaultRetryConfig ((5 : Nat) : Int) =
      calculateBackoffDelay DefaultRetryConfig ((5 : Nat) : Int) ∧
    RetryConfig.NextDelay DefaultRetryConfig 0 = DefaultRetryConfig.initialDelay ∧
    (1 ≤ (5 : Nat) → RetryConfig.NextDelay DefaultRetryConfig ((5 : Nat) : Int) =
      min (DefaultRetryConfig.initialDelay * ((2 : Nat) : Int) ^ (5 : Nat))
        DefaultRetryConfig.maxDelay) :=
  c9_delay_implementations_agree DefaultRetryConfig 2 (by decide) (by norm_num [DefaultRetryConfig])
    (by omega) 5

theorem doRequestLoop_not_none_none (rc : RetryConfig) (ctxDone : Nat → Bool)
    (oracle : Nat → Except GoErr APIResponse) :
    ∀ (rem attempt : Nat) (lastErr : Option GoErr) (sleeps : List Int) (att : Nat),
      (lastErr ≠ none ∨ 1 ≤ rem) →
      ¬((doRequestLoop rc ctxDone oracle attempt rem lastErr sleeps att).resp = none ∧
        (doRequestLoop rc ctxDone oracle attempt rem lastErr sleeps att).err = none) := by
  intro rem
  induction rem with
  | zero =>
    intro attempt lastErr sleeps att h hc
    rcases h with h | h
    · exact h hc.2
    · omega
  | succ rem ih =>
    intro attempt lastErr sleeps att _ hc
    rw [doRequestLoop] at hc
    by_cases hctx : attempt ≠ 0 ∧ ctxDone attempt
    · rw [if_pos hctx] at hc
      cases hc.2
    · rw [if_neg hctx] at hc
      cases horacle : oracle attempt with
      | ok resp =>
        rw [horacle] at hc
        dsimp only at hc
        cases hc.1
      | error e =>
        rw [horacle] at hc
        dsimp only at hc
        by_cases hsr : rc.ShouldRetry e = false
        · rw [if_pos hsr] at hc
          cases hc.2
        · rw [if_neg hsr] at hc
          by_cases hrem : rem = 0
          · rw [if_pos hrem] at hc
            cases hc.2
          · rw [if_neg hrem] at hc
            exact ih (attempt + 1) (some e) (sleepsAfter rc attempt sleeps) (att + 1)
              (Or.inl (by simp)) hc



theorem doRequestLoop_all_fail (rc : RetryConfig) (ctxDone : Nat → Bool)
    (oracle : Nat → Except GoErr APIResponse)
    (hctx : ∀ n, ctxDone n = false)
    (hfail : ∀ n, (oracle n).isOk = false) :
    ∀ (rem attempt : Nat) (lastErr : Option GoErr) (sleeps : List Int) (att : Nat),
      1 ≤ rem →
      ∃ k : Nat, attempt ≤ k ∧ k < attempt + rem ∧
        (doRequestLoop rc ctxDone oracle attempt rem lastErr sleeps att).resp = none ∧
        (doRequestLoop rc ctxDone oracle attempt rem lastErr sleeps att).err =
          some (errOf (oracle k)) ∧
        (doRequestLoop rc ctxDone oracle attempt rem lastErr sleeps att).attempts =
          att + (k - attempt) + 1 ∧
        (∀ j : Nat, attempt ≤ j → j < k → rc.ShouldRetry (errOf (oracle j)) = true) ∧
        (k = attempt + rem - 1 ∨ rc.ShouldRetry (errOf (oracle k)) = false) := by
  intro rem
  induction rem with
  | zero => intro _ _ _ _ h; omega
  | succ rem ih =>
    intro attempt lastErr sleeps att _
    have hctx' : ¬(attempt ≠ 0 ∧ ctxDone attempt) := by
      rw [hctx]
      simp
    obtain ⟨e, he⟩ : ∃ e, oracle attempt = Except.error e := by
      cases h : oracle attempt with
      | ok resp =>
        have := hfail attempt
        rw [h] at this
        cases this
      | error e => exact ⟨e, rfl⟩
    have herr : errOf (oracle attempt) = e := by rw [he]; rfl
    rw [doRequestLoop, if_neg hctx', he]
    dsimp only
    by_cases hsr : rc.ShouldRetry e = false
    · rw [if_pos hsr]
      refine ⟨attempt, le_refl _, by omega, rfl, by rw [herr], by simp, ?_, ?_⟩
      · intro j h1 h2; omega
      · right; rw [herr]; exact hsr
    · rw [if_neg hsr]
      by_cases hrem : rem = 0
      · subst hrem
        rw [if_pos rfl]
        refine ⟨attempt, le_refl _, by omega, rfl, by rw [herr], by simp, ?_, ?_⟩
        · intro j h1 h2; omega
        · left; omega
      · rw [if_neg hrem]
        obtain ⟨k, hk1, hk2, hk3, hk4, hk5, hk6, hk7⟩ :=
          ih (attempt + 1) (some e) (sleepsAfter rc attempt sleeps) (att + 1) (by omega)
        refine ⟨k, by omega, by omega, hk3, hk4, by rw [hk5]; omega, ?_, ?_⟩
        · intro j h1 h2
          rcases Nat.eq_or_lt_of_le h1 with h | h
          · subst h
            rw [herr]
            cases hb : rc.ShouldRetry e
            · exact absurd hb hsr
            · rfl
          · exact hk6 j (by omega) h2
        · rcases hk7 with h | h
          · left; omega
          · right; exact h



theorem c3_counterexample :
    (DoRequest (some ⟨-1, 1000000000, 30000000000, 2, [ErrorType.network, ErrorType.rateLimit]⟩)
        (fun _ => false)
        (fun _ => Except.error (GoErr.zalo (NewNetworkError "down")))).resp = none ∧
    (DoRequest (some ⟨-1, 1000000000, 30000000000, 2, [ErrorType.network, ErrorType.rateLimit]⟩)
        (fun _ => false)
        (fun _ => Except.error (GoErr.zalo (NewNetworkError "down")))).err = none := by
  decide

theorem c3_last_error_never_nil (rc : RetryConfig) (ctxDone : Nat → Bool)
    (oracle : Nat → Except GoErr APIResponse) (hm : 0 ≤ rc.maxRetries) :
    ¬((DoRequest (some rc) ctxDone oracle).resp = none ∧
      (DoRequest (some rc) ctxDone oracle).err = none) ∧
    ((∀ n, ctxDone n = false) → (∀ n, (oracle n).isOk = false) →
      ∃ k : Nat, (k : Int) ≤ rc.maxRetries ∧
        (DoRequest (some rc) ctxDone oracle).resp = none ∧
        (DoRequest (some rc) ctxDone oracle).err = some (errOf (oracle k)) ∧
        (DoRequest (some rc) ctxDone oracle).attempts = k + 1 ∧
        (∀ j : Nat, j < k → rc.ShouldRetry (errOf (oracle j)) = true) ∧
        ((k : Int) = rc.maxRetries ∨ rc.ShouldRetry (errOf (oracle k)) = false)) := by
  have hrem : 1 ≤ (rc.maxRetries + 1).toNat := by omega
  have hdef : DoRequest (some rc) ctxDone oracle =
      doRequestLoop rc ctxDone oracle 0 (rc.maxRetries + 1).toNat none [] 0 := rfl
  constructor
  · rw [hdef]
    exact doRequestLoop_not_none_none rc ctxDone oracle _ 0 none [] 0 (Or.inr hrem)
  · intro hctxa hfaila
    obtain ⟨k, hk1, hk2, hk3, hk4, hk5, hk6, hk7⟩ :=
      doRequestLoop_all_fail rc ctxDone oracle hctxa hfaila
        (rc.maxRetries + 1).toNat 0 none [] 0 hrem
    refine ⟨k, by omega, by rw [hdef]; exact hk3, by rw [hdef]; exact hk4,
      by rw [hdef, hk5]; omega, fun j hj => hk6 j (by omega) hj, ?_⟩
    rcases hk7 with h | h
    · left; omega
    · right; exact h

theorem c3_last_error_never_nil_witness :
    ¬((DoRequest (some DefaultRetryConfig) (fun _ => false)
        (fun _ => Except.error (GoErr.zalo (NewNetworkError "down")))).resp = none ∧
      (DoRequest (some DefaultRetryConfig) (fun _ => false)
        (fun _ => Except.error (GoErr.zalo (NewNetworkError "down")))).err = none) ∧
    ((∀ n : Nat, (fun _ : Nat => false) n = false) →
      (∀ n : Nat, ((fun _ : Nat => Except.error (GoErr.zalo (NewNetworkError "down")) :
          Nat → Except GoErr APIResponse) n).isOk = false) →
      ∃ k : Nat, (k : Int) ≤ DefaultRetryConfig.maxRetries ∧
        (DoRequest (some DefaultRetryConfig) (fun _ => false)
          (fun _ => Except.error (GoErr.zalo (NewNetworkError "down")))).resp = none ∧
        (DoRequest (some DefaultRetryConfig) (fun _ => false)
          (fun _ => Except.error (GoErr.zalo (NewNetworkError "down")))).err =
            some (errOf ((fun _ : Nat => Except.error (GoErr.zalo (NewNetworkError "down")) :
              Nat → Except GoErr APIResponse) k)) ∧
        (DoRequest (some DefaultRetryConfig) (fun _ => false)
          (fun _ => Except.error (GoErr.zalo (NewNetworkError "down")))).attempts = k + 1 ∧
        (∀ j : Nat, j < k → DefaultRetryConfig.ShouldRetry
          (errOf ((fun _ : Nat => Except.error (GoErr.zalo (NewNetworkError "down")) :
            Nat → Except GoErr APIResponse) j)) = true) ∧
        ((k : Int) = DefaultRetryConfig.maxRetries ∨ DefaultRetryConfig.ShouldRetry
          (errOf ((fun _ : Nat => Except.error (GoErr.zalo (NewNetworkError "down")) :
            Nat → Except GoErr APIResponse) k)) = false)) :=
  c3_last_error_never_nil DefaultRetryConfig (fun _ => false)
    (fun _ => Except.error (GoErr.zalo (NewNetworkError "down"))) (by decide)

/-- C7: under the default retry configuration, a first attempt answered
with HTTP 429 and Retry-After: 2 followed by a 200 success envelope makes
exactly two attempts and sleeps 2 seconds — at least the 2-second hint —
before the second attempt (the delay comes from the backoff formula
1s * 2^1; the Retry-After value itself only reaches the error message). -/
theorem c7_rate_limit_two_attempts :
    (DoRequest none (fun _ => false)
      (fun n => if n = 0 then executeRequest ⟨false, 429, 2, none⟩
        else executeRequest ⟨false, 200, 0, some ⟨true, "r", 0, ""⟩⟩)).attempts = 2 ∧
    (DoRequest none (fun _ => false)
      (fun n => if n = 0 then executeRequest ⟨false, 429, 2, none⟩
        else executeRequest ⟨false, 200, 0, some ⟨true, "r", 0, ""⟩⟩)).resp =
      some ⟨true, "r", 0, ""⟩ ∧
    (DoRequest none (fun _ => false)
      (fun n => if n = 0 then executeRequest ⟨false, 429, 2, none⟩
        else executeRequest ⟨false, 200, 0, some ⟨true, "r", 0, ""⟩⟩)).err = none ∧
    (DoRequest none (fun _ => false)
      (fun n => if n = 0 then executeRequest ⟨false, 429, 2, none⟩
        else executeRequest ⟨false, 200, 0, some ⟨true, "r", 0, ""⟩⟩)).sleeps =
      [2000000000] ∧
    2 * 1000000000 ≤ (DoRequest none (fun _ => false)
      (fun n => if n = 0 then executeRequest ⟨false, 429, 2, none⟩
        else executeRequest ⟨false, 200, 0, some ⟨true, "r", 0, ""⟩⟩)).sleeps.foldl
        (fun a b => a + b) 0 := by
  decide

set_option maxRecDepth 100000 in
/-- Counterexample to C4 as stated: a whitespace-only secret is non-empty,
and with the correctly computed HMAC-SHA256 hex digest as signature the
claim demands success, yet the code trims the secret and fails with the
empty-secret error. -/
theorem c4_counterexample :
    ([97] : List Nat) ≠ [] ∧
    hexEncode (hmacSha256 (asciiBytes " ") [97]) ≠ "" ∧
    (" " : String) ≠ "" ∧
    ValidateWebhookSignature [97] (hexEncode (hmacSha256 (asciiBytes " ") [97])) " " =
      some WebhookError.emptySecret := by
  refine ⟨by decide, by decide, by decide, by decide⟩

/-- C4 (amended): verification returns nil exactly when the payload is
non-empty, the signature and the secret do not trim to whitespace-only, and
the signature equals the hex HMAC-SHA256 of the payload under the secret;
the four failures are distinct and checked in the order empty payload,
empty signature, empty secret, mismatch — in particular any wrong
non-blank signature (such as a correct one with one hex character flipped)
under a non-blank secret yields the mismatch error and never the
empty-secret error. -/
theorem c4_validate_characterization (payload : List Nat) (signature secret : String) :
    (ValidateWebhookSignature payload signature secret = none ↔
      payload ≠ [] ∧ trimSpaceIsEmpty signature = false ∧ trimSpaceIsEmpty secret = false ∧
      signature = hexEncode (hmacSha256 (asciiBytes secret) payload)) ∧
    (ValidateWebhookSignature payload signature secret = some WebhookError.emptyPayload ↔
      payload = []) ∧
    (ValidateWebhookSignature payload signature secret = some WebhookError.emptySignature ↔
      payload ≠ [] ∧ trimSpaceIsEmpty signature = true) ∧
    (ValidateWebhookSignature payload signature secret = some WebhookError.emptySecret ↔
      payload ≠ [] ∧ trimSpaceIsEmpty signature = false ∧ trimSpaceIsEmpty secret = true) ∧
    (ValidateWebhookSignature payload signature secret = some WebhookError.invalidSignature ↔
      payload ≠ [] ∧ trimSpaceIsEmpty signature = false ∧ trimSpaceIsEmpty secret = false ∧
      signature ≠ hexEncode (hmacSha256 (asciiBytes secret) payload)) := by
  by_cases hp : payload.length = 0
  · have hp2 : payload = [] := List.length_eq_zero.1 hp
    subst hp2
    simp [ValidateWebhookSignature]
  · have hp2 : payload ≠ [] := fun h => hp (by simp [h])
    by_cases hs : trimSpaceIsEmpty signature
    · simp [ValidateWebhookSignature, hp, hs, hp2]
    · by_cases hc : trimSpaceIsEmpty secret
      · simp [ValidateWebhookSignature, hp, hs, hc, hp2]
      · by_cases heq : signature = hexEncode (hmacSha256 (asciiBytes secret) payload)
        · subst heq
          have hv2 : VerifyWebhookSignature payload
              (hexEncode (hmacSha256 (asciiBytes secret) payload)) secret = true := by
            simp [VerifyWebhookSignature, hp, hs, hc]
          simp [ValidateWebhookSignature, hp, hs, hc, hp2, hv2]
        · have hv2 : VerifyWebhookSignature payload signature secret = false := by
            simp [VerifyWebhookSignature, hp, hs, hc]
            exact heq
          simp [ValidateWebhookSignature, hp, hs, hc, hp2, hv2, heq]

end ZaloBot
